import Mathlib

/-!
Shallow embedding of the Color Confusion session engine
(src/ConfusionEngine.cs, src/confusion_engine.cpp, src/unnamed/part_001 Java,
src/app.js client) and proofs of the frozen claims about it.

Conventions of the embedding: machine integers (C# int, C++ int, Java
int/long) become ℤ; IEEE doubles become ℚ, the exact-arithmetic idealization
of the double computations in the sources; integer division in C-family code
truncates toward zero and becomes Int.tdiv. Each implementation rounds its
double product with its own language rule, and the embedding keeps the three
rules distinct: C++ std::round rounds half away from zero (roundAway), Java
and JavaScript Math.round compute floor (x + 1/2) (roundHalfUp), and C#
Math.Round defaults to MidpointRounding.ToEven, sending ties to the even
neighbor (roundEven). Exact half-integer products are reachable and exactly
representable in binary doubles — at reaction 1900 ms, combo 5, difficulty 1
the product is 11 * 1.5 = 16.5, since 5 * 0.1 is the correctly rounded
double 0.5, and there C# returns 16 while C++, Java and JavaScript return
17 — so the distinction is observable and the three server scoring
functions are embedded separately over the shared product pointsProduct.
JavaScript Math.floor becomes Int.floor. Wall-clock reads (DateTime.Now,
Date.now) become an explicit clock parameter of type ℚ. Randomness
(random.Next, Collections.shuffle, the fill loop) is embedded relationally:
each random draw becomes an existential over its admissible range, so every
property proved universally over the relation holds for every possible run of
the code.
-/

namespace ColorConfusion

/-- Rounding half away from zero, the behavior of C++ std::round; on
nonnegative arguments it coincides with Java and JavaScript Math.round. -/
def roundAway (q : ℚ) : ℤ :=
  if q < 0 then -⌊-q + 1/2⌋ else ⌊q + 1/2⌋

/-- Rounding half up on every input, floor (q + 1/2), the behavior of both
Java Math.round and JavaScript Math.round. -/
def roundHalfUp (q : ℚ) : ℤ :=
  ⌊q + 1/2⌋

/-- Rounding half to even (banker rounding), the behavior of C# Math.Round
on doubles with the default MidpointRounding.ToEven: an exact tie goes to
the even neighbor, every other value to the nearest integer. -/
def roundEven (q : ℚ) : ℤ :=
  if Int.fract q = 1/2 then (if 2 ∣ ⌊q⌋ then ⌊q⌋ else ⌊q⌋ + 1)
  else ⌊q + 1/2⌋

-- ── Color Registry (ConfusionEngine.cs lines 21-38, Java COLORS) ──

/-- Ordered name-to-hex table, from the C# ColorRegistry.Colors initializer
(the Java LinkedHashMap COLORS is identical); iteration order is insertion
order. -/
def registry : List (String × String) :=
  [("Red", "#ef4444"), ("Blue", "#3b82f6"), ("Green", "#22c55e"),
   ("Yellow", "#eab308"), ("Purple", "#8b5cf6"), ("Orange", "#f97316"),
   ("Pink", "#ff29ff"), ("Cyan", "#06b6d4"), ("Indigo", "#6366f1"),
   ("Violet", "#8b5cf6"), ("Black", "#1a1a1a"), ("Brown", "#78350f"),
   ("Lavender", "#a78bfa"), ("White", "#ffffff"), ("Beige", "#f5f5dc")]

/-- Registry key sequence, the Colors.Keys iteration of the C# code. -/
def registryNames : List String := registry.map Prod.fst

/-- ColorRegistry.GetColorPool (ConfusionEngine.cs lines 44-48): the first
min (Colors.Count, 4 + (difficulty - 1) * 2) registry names. -/
def getColorPool (difficulty : ℤ) : List String :=
  registryNames.take (min (registryNames.length : ℤ) (4 + (difficulty - 1) * 2)).toNat

-- ── Case mapping (String.ToUpper / equalsIgnoreCase) ──

/-- Character-wise upper casing, the embedding of ToUpper on the ASCII color
names of the registry. -/
def toUpperStr (s : String) : String := ⟨s.data.map Char.toUpper⟩

/-- Character-wise lower casing, used to embed the case-insensitive answer
comparison (C# OrdinalIgnoreCase, Java equalsIgnoreCase). -/
def toLowerStr (s : String) : String := ⟨s.data.map Char.toLower⟩

-- ── Scoring Calculator (ConfusionEngine.cs 90-108, confusion_engine.cpp 234-265, Java 226-232) ──

/-- Product shared verbatim by the three per-answer scoring implementations
before their final rounding call: (base 10 + truncated-integer speed bonus)
times the combo multiplier times the difficulty bonus, in exact rational
arithmetic. -/
def pointsProduct (reactionTimeMs currentCombo difficulty : ℤ) : ℚ :=
  let basePoints : ℤ := 10
  let speedBonus : ℤ := max 0 (Int.tdiv (2000 - reactionTimeMs) 100)
  let comboMultiplier : ℚ := 1 + (currentCombo : ℚ) * (1/10)
  let difficultyBonus : ℚ := 1 + ((difficulty : ℚ) - 1) * (15/100)
  ((basePoints + speedBonus : ℤ) : ℚ) * comboMultiplier * difficultyBonus

namespace ScoreCalculator

/-- ScoreCalculator.CalculatePoints (ConfusionEngine.cs lines 90-98): the
shared product rounded by C# Math.Round, whose default midpoint mode is
ToEven — banker rounding, not round half away. -/
def calculatePoints (reactionTimeMs currentCombo difficulty : ℤ) : ℤ :=
  roundEven (pointsProduct reactionTimeMs currentCombo difficulty)

/-- ScoreCalculator.CalculateCoins: one coin per 100 points. -/
def calculateCoins (totalPoints : ℤ) : ℤ := Int.tdiv totalPoints 100

/-- ScoreCalculator.CalculateStars: one star per 10 correct answers. -/
def calculateStars (correctAnswers : ℤ) : ℤ := Int.tdiv correctAnswers 10

end ScoreCalculator

namespace ScoringEngine

/-- ScoringEngine::calculatePoints (confusion_engine.cpp lines 234-249): the
shared product rounded by C++ std::round, which rounds half away from
zero. -/
def calculatePoints (reactionTimeMs currentCombo difficulty : ℤ) : ℤ :=
  roundAway (pointsProduct reactionTimeMs currentCombo difficulty)

end ScoringEngine

namespace SessionAnalyzer

/-- SessionAnalyzer.calculatePoints (src/unnamed/part_001 lines 226-232):
the shared product rounded by Java Math.round, which is floor (x + 1/2). -/
def calculatePoints (reactionTimeMs currentCombo difficulty : ℤ) : ℤ :=
  roundHalfUp (pointsProduct reactionTimeMs currentCombo difficulty)

end SessionAnalyzer

/-- Formula of spec section 4.2 for points, written from the words of the
spec for comparison with the source function: round ((10 + speedBonus) *
comboMultiplier * difficultyBonus) with speedBonus = max (0,
(2000 - reactionMs) / 100) under truncation toward zero, comboMultiplier =
1 + combo * 0.1, difficultyBonus = 1 + (difficulty - 1) * 0.15. -/
def pointsSpec (reactionMs combo difficulty : ℤ) : ℤ :=
  let speedBonus : ℤ := max 0 (Int.tdiv (2000 - reactionMs) 100)
  roundAway ((10 + (speedBonus : ℚ)) * (1 + (combo : ℚ) * (1/10)) *
    (1 + ((difficulty : ℚ) - 1) * (15/100)))

/-- Per-answer points of the client-side JavaScript (app.js lines 1305-1308):
Math.round ((10 + speedBonus) * multiplier) with speedBonus =
Math.max (0, Math.floor ((2000 - RT) / 100)); no difficulty factor appears. -/
def jsPointsEarned (rt combo : ℤ) : ℤ :=
  let basePoints : ℤ := 10
  let speedBonus : ℤ := max 0 ⌊((2000 : ℚ) - (rt : ℚ)) / 100⌋
  let multiplier : ℚ := 1 + (combo : ℚ) * (1/10)
  roundHalfUp (((basePoints + speedBonus : ℤ) : ℚ) * multiplier)

-- ── Performance Rating (confusion_engine.cpp 52-62, ConfusionEngine.cs 132-143, Java 237-250) ──

/-- PerformanceRater::getPerformanceRating (confusion_engine.cpp lines 52-62)
= SessionResult.CalculateRating (ConfusionEngine.cs lines 132-143) =
SessionAnalyzer.getPerformanceRating (Java lines 237-250): a first-match
cascade over average reaction time and correct count. -/
def getPerformanceRating (avgReactionMs : ℚ) (score : ℤ) : String :=
  if avgReactionMs < 400 ∧ score > 50 then "Legendary"
  else if avgReactionMs < 500 ∧ score > 40 then "Grandmaster"
  else if avgReactionMs < 600 ∧ score > 30 then "Master"
  else if avgReactionMs < 700 ∧ score > 25 then "Expert"
  else if avgReactionMs < 800 ∧ score > 20 then "Advanced"
  else if avgReactionMs < 1000 ∧ score > 15 then "Proficient"
  else if avgReactionMs < 1200 ∧ score > 10 then "Intermediate"
  else if avgReactionMs < 1500 ∧ score > 5 then "Beginner"
  else "Trainee"

/-- Cascade of spec section 4.2 for the qualitative rating, written from the
words of the spec for comparison with the source function: fixed priority
order Legendary, Grandmaster, Master, Expert, Advanced, Proficient,
Intermediate, Beginner, else Trainee, each clause demanding both bounds. -/
def ratingSpec (avgReactionMs : ℚ) (correct : ℤ) : String :=
  if avgReactionMs < 400 ∧ correct > 50 then "Legendary"
  else if avgReactionMs < 500 ∧ correct > 40 then "Grandmaster"
  else if avgReactionMs < 600 ∧ correct > 30 then "Master"
  else if avgReactionMs < 700 ∧ correct > 25 then "Expert"
  else if avgReactionMs < 800 ∧ correct > 20 then "Advanced"
  else if avgReactionMs < 1000 ∧ correct > 15 then "Proficient"
  else if avgReactionMs < 1200 ∧ correct > 10 then "Intermediate"
  else if avgReactionMs < 1500 ∧ correct > 5 then "Beginner"
  else "Trainee"

-- ── Game Session state machine (ConfusionEngine.cs lines 170-339) ──

/-- GameMode enum (ConfusionEngine.cs lines 53-58). -/
inductive GameMode where
  | endless
  | survival
  | speedRun
deriving DecidableEq

/-- GameState enum (ConfusionEngine.cs lines 62-68); paused is declared by
the source for future use and never entered. -/
inductive GState where
  | idle
  | active
  | paused
  | finished
deriving DecidableEq

/-- StroopQuestion (ConfusionEngine.cs lines 72-81). -/
structure StroopQuestion where
  textWord : String
  fontColorName : String
  fontColorHex : String
  options : List String
deriving DecidableEq

/-- Registry hex lookup with the "#888" default of the source
(ConfusionEngine.cs line 237, Java line 110). -/
def lookupHex (name : String) : String :=
  ((registry.find? (fun p => p.fst == name)).map Prod.snd).getD "#888"

/-- Return value of SubmitAnswer (ConfusionEngine.cs lines 248 and 291-302):
either the error dictionary or the outcome dictionary. The timeLeft entry of
the source dictionary is Math.Round (TimeLeft, 1), a display rounding; the
embedding carries the unrounded session value, which the claims are about. -/
inductive SubmitResult where
  | error
  | ok (correct : Bool) (pointsEarned totalPoints score combo maxCombo lives : ℤ)
      (timeLeft : ℚ) (isActive : Bool)
deriving DecidableEq

/-- Mutable state of GameSession (ConfusionEngine.cs lines 172-189), with the
wall clock made explicit: startTime is the timestamp recorded by Start. -/
structure Session where
  mode : GameMode
  state : GState
  score : ℤ
  totalPoints : ℤ
  combo : ℤ
  maxCombo : ℤ
  lives : ℤ
  timeLeft : ℚ
  target : ℤ
  difficulty : ℤ
  wrongAnswers : ℤ
  currentQuestion : Option StroopQuestion
  startTime : ℚ
  reactions : List ℤ
  colorPool : List String

/-- GameSession constructor (ConfusionEngine.cs lines 191-198): sentinel -1
for the resources of the other modes, difficulty 1, pool for difficulty 1. -/
def mkSession (mode : GameMode) : Session :=
  { mode := mode
    state := GState.idle
    score := 0
    totalPoints := 0
    combo := 0
    maxCombo := 0
    lives := if mode = GameMode.endless then 3 else -1
    timeLeft := if mode = GameMode.survival then 60 else -1
    target := if mode = GameMode.speedRun then 50 else -1
    difficulty := 1
    wrongAnswers := 0
    currentQuestion := none
    startTime := 0
    reactions := []
    colorPool := getColorPool 1 }

/-- GameSession.Start (ConfusionEngine.cs lines 201-205): activate and record
the clock. -/
def start (s : Session) (now : ℚ) : Session :=
  { s with state := GState.active, startTime := now }

/-- GameSession.ScaleDifficulty (ConfusionEngine.cs lines 305-313). -/
def scaleDifficulty (s : Session) : Session :=
  let d : ℤ :=
    if s.score ≥ 40 then 5
    else if s.score ≥ 30 then 4
    else if s.score ≥ 20 then 3
    else if s.score ≥ 10 then 2
    else 1
  { s with difficulty := d, colorPool := getColorPool d }

/-- GameSession.SubmitAnswer (ConfusionEngine.cs lines 245-303). The guard
returns the error dictionary untouched; otherwise the reaction is recorded,
correctness is the case-insensitive comparison with the font color, and the
mode effects of the source are applied, ending with the SpeedRun target
check. -/
def submitAnswer (s : Session) (selectedColor : String) (reactionTimeMs : ℤ) :
    Session × SubmitResult :=
  match s.currentQuestion with
  | none => (s, SubmitResult.error)
  | some q =>
    if s.state = GState.active then
      let s1 := { s with reactions := s.reactions ++ [reactionTimeMs] }
      if toLowerStr q.fontColorName = toLowerStr selectedColor then
        let score1 : ℤ := s1.score + 1
        let combo1 : ℤ := s1.combo + 1
        let pts := ScoreCalculator.calculatePoints reactionTimeMs combo1 s1.difficulty
        let s2 := { s1 with
          score := score1
          combo := combo1
          maxCombo := max s1.maxCombo combo1
          totalPoints := s1.totalPoints + pts
          timeLeft := if s1.mode = GameMode.survival then s1.timeLeft + 3 else s1.timeLeft }
        let s3 := if score1 % 5 = 0 then scaleDifficulty s2 else s2
        let s4 := if s3.mode = GameMode.speedRun ∧ s3.score ≥ s3.target then
            { s3 with state := GState.finished } else s3
        (s4, SubmitResult.ok true pts s4.totalPoints s4.score s4.combo s4.maxCombo
          s4.lives s4.timeLeft (decide (s4.state = GState.active)))
      else
        let s2 := { s1 with combo := 0, wrongAnswers := s1.wrongAnswers + 1 }
        let s3 :=
          match s2.mode with
          | GameMode.endless =>
            let lives1 := s2.lives - 1
            { s2 with lives := lives1
                      state := if lives1 ≤ 0 then GState.finished else s2.state }
          | GameMode.survival =>
            let t1 := max 0 (s2.timeLeft - 3)
            { s2 with timeLeft := t1
                      state := if t1 ≤ 0 then GState.finished else s2.state }
          | GameMode.speedRun =>
            { s2 with totalPoints := max 0 (s2.totalPoints - 5) }
        let s4 := if s3.mode = GameMode.speedRun ∧ s3.score ≥ s3.target then
            { s3 with state := GState.finished } else s3
        (s4, SubmitResult.ok false 0 s4.totalPoints s4.score s4.combo s4.maxCombo
          s4.lives s4.timeLeft (decide (s4.state = GState.active)))
    else (s, SubmitResult.error)

/-- SessionResult (ConfusionEngine.cs lines 113-127). -/
structure SessionResult where
  mode : GameMode
  totalPoints : ℤ
  correctAnswers : ℤ
  wrongAnswers : ℤ
  maxCombo : ℤ
  avgReactionMs : ℚ
  fastestReaction : ℚ
  slowestReaction : ℚ
  elapsedSeconds : ℚ
  accuracy : ℚ
  rating : String
  coinsEarned : ℤ
  starsEarned : ℤ

/-- GameSession.GetFinalReport (ConfusionEngine.cs lines 316-339), with the
DateTime.Now read made an explicit now parameter. -/
def getFinalReport (s : Session) (now : ℚ) : SessionResult :=
  let elapsed := now - s.startTime
  let avgRT : ℚ :=
    if s.reactions = [] then 0
    else ((s.reactions.sum : ℤ) : ℚ) / (s.reactions.length : ℚ)
  let totalAnswers := s.score + s.wrongAnswers
  { mode := s.mode
    totalPoints := s.totalPoints
    correctAnswers := s.score
    wrongAnswers := s.wrongAnswers
    maxCombo := s.maxCombo
    avgReactionMs := avgRT
    fastestReaction := ((s.reactions.min?.getD 0 : ℤ) : ℚ)
    slowestReaction := ((s.reactions.max?.getD 0 : ℤ) : ℚ)
    elapsedSeconds := elapsed
    accuracy := if totalAnswers > 0 then ((s.score : ℚ) * 100) / (totalAnswers : ℚ) else 0
    rating := getPerformanceRating avgRT s.score
    coinsEarned := ScoreCalculator.calculateCoins s.totalPoints
    starsEarned := ScoreCalculator.calculateStars s.score }

-- ── Question generator, embedded relationally (ConfusionEngine.cs 208-242, Java 78-113) ──

/-- Fill loop of NextQuestion (ConfusionEngine.cs lines 225-230, Java lines
101-104): while fewer than 4 options, draw a registry color and append it
when it is not already present. A draw that is already present changes
nothing, so every possible run is a sequence of fresh appends ending at
exactly 4 options. -/
inductive FillTo4 : List String → List String → Prop
  | done (opts : List String) (h : opts.length = 4) : FillTo4 opts opts
  | step (opts : List String) (c : String) (final : List String)
      (hlen : opts.length < 4) (hmem : c ∈ registryNames) (hnew : c ∉ opts)
      (next : FillTo4 (opts ++ [c]) final) : FillTo4 opts final

/-- Possible results of GameSession.NextQuestion past its guard
(ConfusionEngine.cs lines 212-239) = StroopValidator.generateQuestion (Java
lines 78-113). Each random draw of the source is an existential: the font
color is any pool element, the displayed word any pool element different
from it (default Black when none exists), the distractors any permutation of
the remaining pool colors of which the first three are kept, the options are
backfilled from the full registry to exactly 4 and finally reordered. -/
def Gen (pool : List String) (q : StroopQuestion) : Prop :=
  ∃ (fontColor textWord : String) (distractors opts1 optsFinal : List String),
    fontColor ∈ pool ∧
    ((pool.filter (fun c => c != fontColor) ≠ [] ∧
        textWord ∈ pool.filter (fun c => c != fontColor)) ∨
      (pool.filter (fun c => c != fontColor) = [] ∧ textWord = "Black")) ∧
    distractors.Perm (pool.filter (fun c => c != fontColor && c != textWord)) ∧
    FillTo4 (fontColor :: distractors.take 3) opts1 ∧
    optsFinal.Perm opts1 ∧
    q = { textWord := toUpperStr textWord
          fontColorName := fontColor
          fontColorHex := lookupHex fontColor
          options := optsFinal }

/-- GameSession.NextQuestion (ConfusionEngine.cs lines 208-242) as a relation
between the session before, the returned value and the session after: the
guard on line 210 returns null and touches nothing; otherwise a generated
question is stored in CurrentQuestion and returned. -/
def NextQuestionRel (s : Session) (r : Option StroopQuestion) (s' : Session) : Prop :=
  if s.state = GState.active then
    ∃ q, Gen s.colorPool q ∧ r = some q ∧ s' = { s with currentQuestion := some q }
  else r = none ∧ s' = s

-- ── Leaderboard Ranker (confusion_engine.cpp lines 83-146) ──

/-- PlayerScore (confusion_engine.cpp lines 24-33). -/
structure PlayerScore where
  username : String
  mode : String
  totalPoints : ℤ
  correctAnswers : ℤ
  maxCombo : ℤ
  avgReactionMs : ℚ
  elapsedSeconds : ℚ
  rating : String

/-- RankEntry (confusion_engine.cpp lines 35-42). -/
structure RankEntry where
  rank : ℤ
  username : String
  totalPoints : ℤ
  avgReactionMs : ℚ
  rating : String
  percentile : ℚ

/-- Ordering used by the std::sort comparator of getRankings
(confusion_engine.cpp lines 106-110): a precedes b when a has strictly more
points, or equal points and a reaction time no larger. This is the
complement of the strict comparator applied to the swapped pair, the
ordering every std::sort output satisfies. -/
def rankLE (a b : PlayerScore) : Bool :=
  decide (b.totalPoints < a.totalPoints ∨
    (a.totalPoints = b.totalPoints ∧ a.avgReactionMs ≤ b.avgReactionMs))

/-- Loop of getRankings (confusion_engine.cpp lines 115-129): the i-th sorted
record becomes a RankEntry with rank i + 1 and percentile
(total - i - 1) / (total - 1) * 100 when total > 1, else 100. -/
def rankify (total : ℕ) : ℕ → List PlayerScore → List RankEntry
  | _, [] => []
  | i, p :: rest =>
    { rank := (i : ℤ) + 1
      username := p.username
      totalPoints := p.totalPoints
      avgReactionMs := p.avgReactionMs
      rating := p.rating
      percentile :=
        if 1 < total then (((total : ℚ) - (i : ℚ) - 1) / ((total : ℚ) - 1)) * 100
        else 100 } :: rankify total (i + 1) rest

/-- StroopRanker::getRankings (confusion_engine.cpp lines 96-132): filter by
mode when the filter is nonempty, sort by points descending breaking ties by
reaction time ascending, then attach ranks and percentiles. -/
def getRankings (scores : List PlayerScore) (modeFilter : String) : List RankEntry :=
  let filtered := scores.filter (fun s => modeFilter == "" || s.mode == modeFilter)
  let sorted := filtered.mergeSort rankLE
  rankify sorted.length 0 sorted

-- ── Reachable survival sessions (for the survival-time invariant) ──

/-- Sessions reachable by the engine in Survival mode: a freshly started
survival session, followed by any interleaving of NextQuestion calls and
SubmitAnswer calls with arbitrary answers and reaction times. -/
inductive SurvReach : Session → Prop
  | init (now : ℚ) : SurvReach (start (mkSession GameMode.survival) now)
  | ask (s : Session) (r : Option StroopQuestion) (s' : Session)
      (h : SurvReach s) (hn : NextQuestionRel s r s') : SurvReach s'
  | answer (s : Session) (color : String) (rt : ℤ) (h : SurvReach s) :
      SurvReach (submitAnswer s color rt).1

-- ── Concrete sessions used by counterexamples and witnesses ──

/-- Finished Endless session after one correct answer (500 ms, 25 points)
and one wrong answer; startTime 0. -/
def exSession : Session :=
  { mode := GameMode.endless
    state := GState.finished
    score := 1
    totalPoints := 25
    combo := 0
    maxCombo := 1
    lives := 2
    timeLeft := -1
    target := -1
    difficulty := 1
    wrongAnswers := 1
    currentQuestion := none
    startTime := 0
    reactions := [500, 800]
    colorPool := getColorPool 1 }

/-- Concrete Stroop question: the word BLUE rendered in Red. -/
def exQuestion : StroopQuestion :=
  { textWord := "BLUE"
    fontColorName := "Red"
    fontColorHex := "#ef4444"
    options := ["Red", "Green", "Yellow", "Blue"] }

/-- Active Survival session with 3 seconds left and exQuestion pending. -/
def exSurvSession : Session :=
  { mode := GameMode.survival
    state := GState.active
    score := 0
    totalPoints := 0
    combo := 0
    maxCombo := 0
    lives := -1
    timeLeft := 3
    target := -1
    difficulty := 1
    wrongAnswers := 0
    currentQuestion := some exQuestion
    startTime := 0
    reactions := []
    colorPool := getColorPool 1 }

/-- Active SpeedRun session at 49 of 50 with exQuestion pending. -/
def exSpeedSession : Session :=
  { mode := GameMode.speedRun
    state := GState.active
    score := 49
    totalPoints := 30
    combo := 2
    maxCombo := 5
    lives := -1
    timeLeft := -1
    target := 50
    difficulty := 1
    wrongAnswers := 0
    currentQuestion := some exQuestion
    startTime := 0
    reactions := [400]
    colorPool := getColorPool 1 }

-- ── Claims ──

/-- Rounding half up agrees with rounding half away from zero on
nonnegative arguments. -/
theorem roundHalfUp_eq_roundAway_of_nonneg (q : ℚ) (h : 0 ≤ q) :
    roundHalfUp q = roundAway q := by
  rw [roundHalfUp, roundAway, if_neg (not_lt.mpr h)]

/-- Away from exact half-integers, rounding half up agrees with rounding
half away from zero on every argument. -/
theorem roundHalfUp_eq_roundAway (q : ℚ) (h : Int.fract q ≠ 1/2) :
    roundHalfUp q = roundAway q := by
  rcases le_or_lt 0 q with hq | hq
  · rw [roundHalfUp, roundAway, if_neg (not_lt.mpr hq)]
  · rw [roundHalfUp, roundAway, if_pos hq]
    have hfx : (⌊q⌋ : ℚ) + Int.fract q = q := Int.floor_add_fract q
    have hf0 : 0 ≤ Int.fract q := Int.fract_nonneg q
    have hf1 : Int.fract q < 1 := Int.fract_lt_one q
    rcases lt_or_gt_of_ne h with hlt | hgt
    · have h1 : ⌊q + 1/2⌋ = ⌊q⌋ := by
        rw [Int.floor_eq_iff]
        constructor
        · linarith
        · linarith
      have h2 : ⌊-q + 1/2⌋ = -⌊q⌋ := by
        rw [Int.floor_eq_iff]
        constructor
        · push_cast
          linarith
        · push_cast
          linarith
      rw [h1, h2]
      omega
    · have h1 : ⌊q + 1/2⌋ = ⌊q⌋ + 1 := by
        rw [Int.floor_eq_iff]
        constructor
        · push_cast
          linarith
        · push_cast
          linarith
      have h2 : ⌊-q + 1/2⌋ = -⌊q⌋ - 1 := by
        rw [Int.floor_eq_iff]
        constructor
        · push_cast
          linarith
        · push_cast
          linarith
      rw [h1, h2]
      omega

/-- The client-side JavaScript per-answer points are the half-up rounding of
the shared server product taken at difficulty 1: its floor-of-real-division
speed bonus clamps to the same value as the truncating integer division, and
its product lacks only the difficulty factor, which is 1 there. -/
theorem jsPointsEarned_eq_roundHalfUp (rt c : ℤ) :
    jsPointsEarned rt c = roundHalfUp (pointsProduct rt c 1) := by
  have hcast : ((2000 : ℚ) - (rt : ℚ)) = ((2000 - rt : ℤ) : ℚ) := by push_cast; ring
  have hfl : (⌊((2000 : ℚ) - (rt : ℚ)) / 100⌋ : ℤ) = (2000 - rt) / 100 := by
    rw [hcast]
    exact_mod_cast Rat.floor_intCast_div_natCast (2000 - rt) 100
  have hsb : max 0 (⌊((2000 : ℚ) - (rt : ℚ)) / 100⌋ : ℤ) =
      max 0 (Int.tdiv (2000 - rt) 100) := by
    rcases le_or_lt 0 (2000 - rt) with h | h
    · rw [hfl, Int.tdiv_eq_ediv h (by norm_num)]
    · have h1 : (2000 - rt) / 100 ≤ 0 := by omega
      have h2 : Int.tdiv (2000 - rt) 100 ≤ 0 := by
        have h3 : 0 ≤ Int.tdiv (-(2000 - rt)) 100 :=
          Int.tdiv_nonneg (by omega) (by norm_num)
        rw [Int.neg_tdiv] at h3
        omega
      rw [hfl]
      omega
  simp only [jsPointsEarned, pointsProduct, hsb]
  congr 1
  push_cast
  ring

/-- The shared product is nonnegative at difficulty 1 for nonnegative
combos. -/
theorem pointsProduct_nonneg (rt c : ℤ) (hc : 0 ≤ c) :
    0 ≤ pointsProduct rt c 1 := by
  have heq : pointsProduct rt c 1 =
      ((10 + max 0 (Int.tdiv (2000 - rt) 100) : ℤ) : ℚ) * (1 + (c : ℚ) * (1/10)) := by
    simp only [pointsProduct]
    push_cast
    ring
  rw [heq]
  have h1 : (0 : ℤ) ≤ 10 + max 0 (Int.tdiv (2000 - rt) 100) := by
    have := le_max_left (0 : ℤ) (Int.tdiv (2000 - rt) 100)
    omega
  have h2 : (0 : ℚ) ≤ ((10 + max 0 (Int.tdiv (2000 - rt) 100) : ℤ) : ℚ) := by
    exact_mod_cast h1
  have hc' : (0 : ℚ) ≤ (c : ℚ) := by exact_mod_cast hc
  have h3 : (0 : ℚ) ≤ 1 + (c : ℚ) * (1/10) := by positivity
  exact mul_nonneg h2 h3

/-- Value of the shared product at reaction 300 ms, combo 5, difficulty 3:
27 * 1.5 * 1.3 = 52.65. -/
theorem pointsProduct_300_5_3 : pointsProduct 300 5 3 = 1053/20 := by
  have hsb : max 0 (Int.tdiv (2000 - 300) 100) = 17 := by decide
  simp only [pointsProduct, hsb]
  norm_num

/-- Value of the shared product at reaction 1900 ms, combo 5, difficulty 1:
11 * 1.5 * 1 = 16.5, an exact midpoint. -/
theorem pointsProduct_1900_5_1 : pointsProduct 1900 5 1 = 33/2 := by
  have hsb : max 0 (Int.tdiv (2000 - 1900) 100) = 1 := by decide
  simp only [pointsProduct, hsb]
  norm_num

/-- Value of the shared product at reaction 300 ms, combo 5, difficulty 1:
27 * 1.5 * 1 = 40.5, an exact midpoint. -/
theorem pointsProduct_300_5_1 : pointsProduct 300 5 1 = 81/2 := by
  have hsb : max 0 (Int.tdiv (2000 - 300) 100) = 17 := by decide
  simp only [pointsProduct, hsb]
  norm_num

/-- Value of the shared product at reaction 300 ms, combo 4, difficulty 1:
27 * 1.4 * 1 = 37.8, not a midpoint. -/
theorem pointsProduct_300_4_1 : pointsProduct 300 4 1 = 189/5 := by
  have hsb : max 0 (Int.tdiv (2000 - 300) 100) = 17 := by decide
  simp only [pointsProduct, hsb]
  norm_num

/-- The product 52.65 is not a half-integer. -/
theorem fract_300_5_3_ne : Int.fract (pointsProduct 300 5 3) ≠ 1/2 := by
  rw [pointsProduct_300_5_3, ← Int.self_sub_floor]
  have hfl : ⌊(1053/20 : ℚ)⌋ = 52 := by norm_num [Int.floor_eq_iff]
  rw [hfl]
  norm_num

/-- The product 37.8 is not a half-integer. -/
theorem fract_300_4_1_ne : Int.fract (pointsProduct 300 4 1) ≠ 1/2 := by
  rw [pointsProduct_300_4_1, ← Int.self_sub_floor]
  have hfl : ⌊(189/5 : ℚ)⌋ = 37 := by norm_num [Int.floor_eq_iff]
  rw [hfl]
  norm_num

/-- The product 16.5 is an exact midpoint. -/
theorem fract_1900_5_1 : Int.fract (pointsProduct 1900 5 1) = 1/2 := by
  rw [pointsProduct_1900_5_1, ← Int.self_sub_floor]
  have hfl : ⌊(33/2 : ℚ)⌋ = 16 := by norm_num [Int.floor_eq_iff]
  rw [hfl]
  norm_num

/-- The C# engine rounds the midpoint 16.5 down to the even neighbor 16. -/
theorem cs_points_1900 : ScoreCalculator.calculatePoints 1900 5 1 = 16 := by
  have hfl : ⌊pointsProduct 1900 5 1⌋ = 16 := by
    rw [pointsProduct_1900_5_1]
    norm_num [Int.floor_eq_iff]
  simp only [ScoreCalculator.calculatePoints, roundEven, if_pos fract_1900_5_1, hfl]
  norm_num

/-- Conventional rounding sends the midpoint 16.5 up to 17. -/
theorem spec_points_1900 : pointsSpec 1900 5 1 = 17 := by
  have hsb : max 0 (Int.tdiv (2000 - 1900) 100) = 1 := by decide
  simp only [pointsSpec, hsb, roundAway]
  rw [if_neg (by norm_num)]
  norm_num [Int.floor_eq_iff]

/-- C1 counterexample: at reaction 1900 ms, combo 5, difficulty 1 the
product is exactly 16.5 — a midpoint that is exactly representable in
binary doubles, since 5 * 0.1 is the correctly rounded double 0.5 — and the
C# Math.Round banker rounding returns 16 while round (16.5) = 17, so the
cited C# implementation does not satisfy points = round (formula) for all
integer inputs. -/
theorem c1_counterexample :
    ScoreCalculator.calculatePoints 1900 5 1 = 16 ∧
    pointsSpec 1900 5 1 = 17 ∧
    ScoreCalculator.calculatePoints 1900 5 1 ≠ pointsSpec 1900 5 1 := by
  refine ⟨cs_points_1900, spec_points_1900, ?_⟩
  rw [cs_points_1900, spec_points_1900]
  decide

/-- C1 amended: the C++ implementation equals round ((10 + speedBonus) *
comboMultiplier * difficultyBonus), with the speed bonus computed by integer
division truncating toward zero before the outer round, for all integer
inputs; the C# implementation, whose Math.Round sends exact midpoints to the
even neighbor, equals the same formula whenever the product is not an exact
half-integer; both return 53 at (300, 5, 3). -/
theorem c1_points_formula :
    (∀ r c d : ℤ, ScoringEngine.calculatePoints r c d = pointsSpec r c d) ∧
    (∀ r c d : ℤ, Int.fract (pointsProduct r c d) ≠ 1/2 →
      ScoreCalculator.calculatePoints r c d = pointsSpec r c d) ∧
    ScoringEngine.calculatePoints 300 5 3 = 53 ∧
    ScoreCalculator.calculatePoints 300 5 3 = 53 := by
  have hspec : ∀ r c d : ℤ, roundAway (pointsProduct r c d) = pointsSpec r c d := by
    intro r c d
    simp only [pointsProduct, pointsSpec]
    congr 1
    push_cast
    ring
  refine ⟨?_, ?_, ?_, ?_⟩
  · intro r c d
    exact hspec r c d
  · intro r c d hf
    simp only [ScoreCalculator.calculatePoints, roundEven, if_neg hf]
    have hstep : (⌊pointsProduct r c d + 1/2⌋ : ℤ) = roundHalfUp (pointsProduct r c d) := rfl
    rw [hstep, roundHalfUp_eq_roundAway _ hf]
    exact hspec r c d
  · simp only [ScoringEngine.calculatePoints, pointsProduct_300_5_3, roundAway]
    rw [if_neg (by norm_num)]
    norm_num [Int.floor_eq_iff]
  · simp only [ScoreCalculator.calculatePoints, roundEven, if_neg fract_300_5_3_ne]
    rw [pointsProduct_300_5_3]
    norm_num [Int.floor_eq_iff]

/-- C1 amended witness: at (300, 5, 3) the product 52.65 is not a midpoint,
and the C# points agree there with the documented formula. -/
theorem c1_witness :
    Int.fract (pointsProduct 300 5 3) ≠ 1/2 ∧
    ScoreCalculator.calculatePoints 300 5 3 = pointsSpec 300 5 3 :=
  ⟨fract_300_5_3_ne, c1_points_formula.2.1 300 5 3 fract_300_5_3_ne⟩

/-- C4: rating (avgReactionMs, correctCount) is the first-match cascade in
the fixed order Legendary, Grandmaster, Master, Expert, Advanced,
Proficient, Intermediate, Beginner, else Trainee, each clause demanding both
its reaction-time upper bound and its correct-count lower bound; in
particular rating (450, 45) = Grandmaster. -/
theorem c4_rating_cascade :
    (∀ (a : ℚ) (c : ℤ), getPerformanceRating a c = ratingSpec a c) ∧
    getPerformanceRating 450 45 = "Grandmaster" := by
  constructor
  · intro a c
    rfl
  · norm_num [getPerformanceRating]

/-- C2 counterexample: at reaction 300 ms, combo 5, difficulty 3 the
client-side JavaScript awards 41 points while the C++ server engine awards
53, so the client and server per-answer scores are not equal for every
input. -/
theorem c2_counterexample :
    jsPointsEarned 300 5 ≠ ScoringEngine.calculatePoints 300 5 3 := by
  have ha : jsPointsEarned 300 5 = 41 := by
    rw [jsPointsEarned_eq_roundHalfUp, pointsProduct_300_5_1]
    simp only [roundHalfUp]
    norm_num [Int.floor_eq_iff]
  have hb : ScoringEngine.calculatePoints 300 5 3 = 53 := by
    simp only [ScoringEngine.calculatePoints, pointsProduct_300_5_3, roundAway]
    rw [if_neg (by norm_num)]
    norm_num [Int.floor_eq_iff]
  rw [ha, hb]
  decide

/-- C2 amended: the client-side JavaScript omits the difficulty bonus, so
its per-answer points correspond to the servers only at difficulty 1, and
there only up to each server rounding rule: the client coincides with the
Java server on every input and with the C++ server on every nonnegative
combo, and with the C# server whenever the product is not an exact
half-integer; at the midpoint (1900 ms, combo 5) the client returns 17
while the C# server returns 16. -/
theorem c2_js_equals_server_at_difficulty_one :
    (∀ rt c : ℤ, jsPointsEarned rt c = SessionAnalyzer.calculatePoints rt c 1) ∧
    (∀ rt c : ℤ, 0 ≤ c → jsPointsEarned rt c = ScoringEngine.calculatePoints rt c 1) ∧
    (∀ rt c : ℤ, Int.fract (pointsProduct rt c 1) ≠ 1/2 →
      jsPointsEarned rt c = ScoreCalculator.calculatePoints rt c 1) ∧
    jsPointsEarned 1900 5 = 17 ∧
    ScoreCalculator.calculatePoints 1900 5 1 = 16 := by
  refine ⟨?_, ?_, ?_, ?_, cs_points_1900⟩
  · intro rt c
    exact jsPointsEarned_eq_roundHalfUp rt c
  · intro rt c hc
    rw [jsPointsEarned_eq_roundHalfUp]
    simp only [ScoringEngine.calculatePoints]
    exact roundHalfUp_eq_roundAway_of_nonneg _ (pointsProduct_nonneg rt c hc)
  · intro rt c hf
    rw [jsPointsEarned_eq_roundHalfUp]
    simp only [ScoreCalculator.calculatePoints, roundEven, if_neg hf]
    rfl
  · rw [jsPointsEarned_eq_roundHalfUp, pointsProduct_1900_5_1]
    simp only [roundHalfUp]
    norm_num [Int.floor_eq_iff]

/-- C2 amended witness: at reaction 300 ms and combo 4 the product 37.8 is
not a midpoint, the combo is nonnegative, and the client agrees with both
the C++ and the C# difficulty-1 scores. -/
theorem c2_witness :
    jsPointsEarned 300 4 = ScoringEngine.calculatePoints 300 4 1 ∧
    jsPointsEarned 300 4 = ScoreCalculator.calculatePoints 300 4 1 :=
  ⟨c2_js_equals_server_at_difficulty_one.2.1 300 4 (by norm_num),
   c2_js_equals_server_at_difficulty_one.2.2.1 300 4 fract_300_4_1_ne⟩

/-- C3 counterexample: exSession is Finished, yet two getFinalReport calls
at wall-clock instants 10 and 20 return different reports, because
ElapsedSeconds is recomputed from DateTime.Now at every call rather than
frozen: the claim that repeated calls agree in every field including
elapsed seconds fails. -/
theorem c3_counterexample :
    exSession.state = GState.finished ∧
    getFinalReport exSession 10 ≠ getFinalReport exSession 20 := by
  refine ⟨rfl, fun h => ?_⟩
  have h2 := congrArg SessionResult.elapsedSeconds h
  simp only [getFinalReport, exSession] at h2
  norm_num at h2

/-- C3 amended: for a Finished session, two getFinalReport calls agree on
every field except elapsedSeconds, which is the wall-clock time of the call
minus the start time. -/
theorem c3_report_fields_stable (s : Session) (n1 n2 : ℚ)
    (hfin : s.state = GState.finished) :
    (getFinalReport s n1).mode = (getFinalReport s n2).mode ∧
    (getFinalReport s n1).totalPoints = (getFinalReport s n2).totalPoints ∧
    (getFinalReport s n1).correctAnswers = (getFinalReport s n2).correctAnswers ∧
    (getFinalReport s n1).wrongAnswers = (getFinalReport s n2).wrongAnswers ∧
    (getFinalReport s n1).maxCombo = (getFinalReport s n2).maxCombo ∧
    (getFinalReport s n1).avgReactionMs = (getFinalReport s n2).avgReactionMs ∧
    (getFinalReport s n1).fastestReaction = (getFinalReport s n2).fastestReaction ∧
    (getFinalReport s n1).slowestReaction = (getFinalReport s n2).slowestReaction ∧
    (getFinalReport s n1).accuracy = (getFinalReport s n2).accuracy ∧
    (getFinalReport s n1).rating = (getFinalReport s n2).rating ∧
    (getFinalReport s n1).coinsEarned = (getFinalReport s n2).coinsEarned ∧
    (getFinalReport s n1).starsEarned = (getFinalReport s n2).starsEarned ∧
    (getFinalReport s n1).elapsedSeconds = n1 - s.startTime :=
  ⟨rfl, rfl, rfl, rfl, rfl, rfl, rfl, rfl, rfl, rfl, rfl, rfl, rfl⟩

/-- C3 amended witness: the stability of every non-elapsed field
instantiated on the concrete finished session at instants 10 and 20. -/
theorem c3_witness :
    (getFinalReport exSession 10).totalPoints =
      (getFinalReport exSession 20).totalPoints ∧
    (getFinalReport exSession 10).elapsedSeconds = 10 - exSession.startTime :=
  ⟨(c3_report_fields_stable exSession 10 20 rfl).2.1,
   (c3_report_fields_stable exSession 10 20 rfl).2.2.2.2.2.2.2.2.2.2.2.2⟩

/-- C7: SubmitAnswer on a session that is not Active returns the
distinguishable error result and leaves the session completely unchanged. -/
theorem c7_submit_inactive_guard (s : Session) (color : String) (rt : ℤ)
    (h : s.state ≠ GState.active) :
    (submitAnswer s color rt).1 = s ∧ (submitAnswer s color rt).2 = SubmitResult.error := by
  have hred : submitAnswer s color rt = (s, SubmitResult.error) := by
    cases hq : s.currentQuestion with
    | none => unfold submitAnswer; rw [hq]
    | some q => unfold submitAnswer; rw [hq]; exact if_neg h
  rw [hred]
  exact ⟨rfl, rfl⟩

/-- C7 witness: a freshly constructed (Idle) Endless session is unchanged
and receives the error result. -/
theorem c7_witness :
    (submitAnswer (mkSession GameMode.endless) "Red" 500).1 = mkSession GameMode.endless ∧
    (submitAnswer (mkSession GameMode.endless) "Red" 500).2 = SubmitResult.error :=
  c7_submit_inactive_guard (mkSession GameMode.endless) "Red" 500 (by simp [mkSession])

/-- C10: NextQuestion on a session that is not Active returns null,
generates no question and changes no session state. -/
theorem c10_nextquestion_guard (s : Session) (r : Option StroopQuestion) (s' : Session)
    (h : s.state ≠ GState.active) (hn : NextQuestionRel s r s') :
    r = none ∧ s' = s := by
  unfold NextQuestionRel at hn
  rwa [if_neg h] at hn

/-- C10 witness: the guard statement applied to a concrete Idle session. -/
theorem c10_witness :
    (none : Option StroopQuestion) = none ∧
    mkSession GameMode.survival = mkSession GameMode.survival :=
  c10_nextquestion_guard (mkSession GameMode.survival) none (mkSession GameMode.survival)
    (by simp [mkSession])
    (by unfold NextQuestionRel; rw [if_neg (by simp [mkSession])]; exact ⟨rfl, rfl⟩)

/-- C8: in a SpeedRun session a wrong answer moves totalPoints to
max (0, totalPoints - 5) while score, lives and the timer are untouched (so
the accuracy numerator is untouched as well), and any submitted answer whose
resulting score reaches the target finishes the session, correct answers
included. -/
theorem c8_speedrun_effects (s : Session) (q : StroopQuestion) (color : String) (rt : ℤ)
    (hm : s.mode = GameMode.speedRun) (hs : s.state = GState.active)
    (hq : s.currentQuestion = some q) :
    (toLowerStr q.fontColorName ≠ toLowerStr color →
      ((submitAnswer s color rt).1.totalPoints = max 0 (s.totalPoints - 5) ∧
       (submitAnswer s color rt).1.score = s.score ∧
       (submitAnswer s color rt).1.lives = s.lives ∧
       (submitAnswer s color rt).1.timeLeft = s.timeLeft)) ∧
    ((submitAnswer s color rt).1.score ≥ s.target →
      (submitAnswer s color rt).1.state = GState.finished) := by
  constructor
  · intro hcor
    unfold submitAnswer
    rw [hq]
    simp only [hm, hs, if_pos, if_neg hcor]
    refine ⟨?_, ?_, ?_, ?_⟩ <;> (split <;> rfl)
  · intro hge
    by_cases hcor : toLowerStr q.fontColorName = toLowerStr color
    · unfold submitAnswer at hge ⊢
      rw [hq] at hge ⊢
      simp only [hm, hs, if_pos, if_pos hcor] at hge ⊢
      by_cases h5 : (s.score + 1) % 5 = 0
      · simp only [if_pos h5, scaleDifficulty] at hge ⊢
        by_cases hC : True ∧ s.score + 1 ≥ s.target
        · simp only [if_pos hC]
        · simp only [if_neg hC] at hge ⊢
          exact absurd ⟨trivial, hge⟩ hC
      · simp only [if_neg h5] at hge ⊢
        by_cases hC : True ∧ s.score + 1 ≥ s.target
        · simp only [if_pos hC]
        · simp only [if_neg hC] at hge ⊢
          exact absurd ⟨trivial, hge⟩ hC
    · unfold submitAnswer at hge ⊢
      rw [hq] at hge ⊢
      simp only [hm, hs, if_pos, if_neg hcor] at hge ⊢
      by_cases hC : True ∧ s.score ≥ s.target
      · simp only [if_pos hC]
      · simp only [if_neg hC] at hge ⊢
        exact absurd ⟨trivial, hge⟩ hC

/-- C8 witness: the SpeedRun effects instantiated on the concrete active
session at 49 of 50 with the wrong answer Blue. -/
theorem c8_witness :
    (toLowerStr exQuestion.fontColorName ≠ toLowerStr "Blue" →
      ((submitAnswer exSpeedSession "Blue" 400).1.totalPoints =
        max 0 (exSpeedSession.totalPoints - 5) ∧
       (submitAnswer exSpeedSession "Blue" 400).1.score = exSpeedSession.score ∧
       (submitAnswer exSpeedSession "Blue" 400).1.lives = exSpeedSession.lives ∧
       (submitAnswer exSpeedSession "Blue" 400).1.timeLeft = exSpeedSession.timeLeft)) ∧
    ((submitAnswer exSpeedSession "Blue" 400).1.score ≥ exSpeedSession.target →
      (submitAnswer exSpeedSession "Blue" 400).1.state = GState.finished) :=
  c8_speedrun_effects exSpeedSession exQuestion "Blue" 400 rfl rfl rfl

/-- SubmitAnswer in Survival mode preserves the mode and keeps the timer
nonnegative: correct answers add 3 seconds, wrong answers clamp at 0, and
the guard path changes nothing. -/
theorem surv_submit (s : Session) (c : String) (rt : ℤ)
    (hmode : s.mode = GameMode.survival) (ht : 0 ≤ s.timeLeft) :
    (submitAnswer s c rt).1.mode = GameMode.survival ∧
    0 ≤ (submitAnswer s c rt).1.timeLeft := by
  cases hq : s.currentQuestion with
  | none =>
    have hred : submitAnswer s c rt = (s, SubmitResult.error) := by
      unfold submitAnswer; rw [hq]
    rw [hred]
    exact ⟨hmode, ht⟩
  | some q =>
    by_cases hs : s.state = GState.active
    · unfold submitAnswer
      rw [hq]
      simp only [hmode, hs, if_pos]
      by_cases hcor : toLowerStr q.fontColorName = toLowerStr c
      · simp only [if_pos hcor]
        by_cases h5 : (s.score + 1) % 5 = 0
        · simp only [if_pos h5, scaleDifficulty]
          simp only [show (GameMode.survival = GameMode.speedRun) = False from by simp,
            false_and, if_false]
          exact ⟨trivial, by linarith⟩
        · simp only [if_neg h5]
          simp only [show (GameMode.survival = GameMode.speedRun) = False from by simp,
            false_and, if_false]
          exact ⟨trivial, by linarith⟩
      · simp only [if_neg hcor]
        simp only [show (GameMode.survival = GameMode.speedRun) = False from by simp,
          false_and, if_false]
        refine ⟨trivial, ?_⟩
        exact le_max_left 0 _
    · have hred : submitAnswer s c rt = (s, SubmitResult.error) := by
        unfold submitAnswer; rw [hq]; exact if_neg hs
      rw [hred]
      exact ⟨hmode, ht⟩

/-- C9: the Survival timer never goes negative along any reachable play
(the session starts at 60 seconds, correct answers add 3 seconds, wrong
answers subtract 3 floored at 0), and a wrong answer that brings the timer
to exactly 0 finishes the session. -/
theorem c9_survival_time :
    (∀ s, SurvReach s → 0 ≤ s.timeLeft) ∧
    (∀ (s : Session) (q : StroopQuestion) (color : String) (rt : ℤ),
      s.mode = GameMode.survival → s.state = GState.active →
      s.currentQuestion = some q →
      toLowerStr q.fontColorName ≠ toLowerStr color →
      (submitAnswer s color rt).1.timeLeft = 0 →
      (submitAnswer s color rt).1.state = GState.finished) := by
  constructor
  · have key : ∀ s, SurvReach s → s.mode = GameMode.survival ∧ 0 ≤ s.timeLeft := by
      intro s h
      induction h with
      | init now =>
        refine ⟨rfl, ?_⟩
        show (0 : ℚ) ≤ (start (mkSession GameMode.survival) now).timeLeft
        norm_num [start, mkSession]
      | ask s r s' h hn ih =>
        unfold NextQuestionRel at hn
        by_cases hs : s.state = GState.active
        · rw [if_pos hs] at hn
          obtain ⟨q, _, _, hs'⟩ := hn
          subst hs'
          exact ih
        · rw [if_neg hs] at hn
          rw [hn.2]
          exact ih
      | answer s c rt h ih => exact surv_submit s c rt ih.1 ih.2
    exact fun s h => (key s h).2
  · intro s q color rt hmode hs hq hcor hzero
    unfold submitAnswer at hzero ⊢
    rw [hq] at hzero ⊢
    simp only [hmode, hs, if_pos, if_neg hcor] at hzero ⊢
    simp only [show (GameMode.survival = GameMode.speedRun) = False from by simp,
      false_and, if_false] at hzero ⊢
    rw [if_pos (le_of_eq hzero)]

/-- C9 witness: the invariant applied to a freshly started survival session,
and the exactly-0 finish applied to the concrete 3-second session answering
wrongly. -/
theorem c9_witness :
    0 ≤ (start (mkSession GameMode.survival) 0).timeLeft ∧
    (submitAnswer exSurvSession "Blue" 400).1.state = GState.finished := by
  refine ⟨c9_survival_time.1 _ (SurvReach.init 0), ?_⟩
  refine c9_survival_time.2 exSurvSession exQuestion "Blue" 400 rfl rfl rfl (by decide) ?_
  have hne : ¬ (toLowerStr "Red" = toLowerStr "Blue") := by decide
  unfold submitAnswer
  simp only [exSurvSession, exQuestion, if_pos, if_neg hne]
  norm_num

/-- No registry color name equals the upper casing of a registry color name,
because every registry name keeps lowercase letters after its initial. -/
theorem registry_no_upper :
    ∀ a ∈ registryNames, ∀ b ∈ registryNames, toUpperStr a ≠ b := by decide

/-- A duplicate-free pool with at least two colors keeps at least one color
after removing a single value. -/
theorem filter_ne_nonempty (pool : List String) (fc : String)
    (hnd : pool.Nodup) (hlen : 2 ≤ pool.length) :
    pool.filter (fun c => c != fc) ≠ [] := by
  cases pool with
  | nil => simp at hlen
  | cons a t =>
    cases t with
    | nil => norm_num at hlen
    | cons b t2 =>
      intro hemp
      have hall := List.filter_eq_nil_iff.mp hemp
      have ha : a = fc := by
        have := hall a (by simp)
        simpa using this
      have hb : b = fc := by
        have := hall b (by simp)
        simpa using this
      have hab : a ≠ b := by
        have := List.nodup_cons.mp hnd
        exact fun h => this.1 (h ▸ List.mem_cons_self b t2)
      exact hab (ha.trans hb.symm)

/-- The fill loop always stops at exactly 4 options. -/
theorem fillTo4_length {o f : List String} (h : FillTo4 o f) : f.length = 4 := by
  induction h with
  | done o h => exact h
  | step o c f hlen hmem hnew next ih => exact ih

/-- The fill loop keeps every option already present. -/
theorem fillTo4_mem {o f : List String} {a : String} (h : FillTo4 o f) (ha : a ∈ o) :
    a ∈ f := by
  induction h with
  | done o h => exact ha
  | step o c f hlen hmem hnew next ih => exact ih (by simp [ha])

/-- The fill loop only appends colors not already present, so it preserves
freedom from duplicates. -/
theorem fillTo4_nodup {o f : List String} (h : FillTo4 o f) (hnd : o.Nodup) : f.Nodup := by
  induction h with
  | done o h => exact hnd
  | step o c f hlen hmem hnew next ih =>
    refine ih ?_
    simp [List.nodup_append, hnd, hnew]

/-- C5: every question the generator can produce from a duplicate-free pool
of at least 4 registry colors displays a word different from its correct
font color and carries exactly 4 pairwise-distinct options among which the
correct color appears; the registry backfill inside Gen covers pools short
of distractors. -/
theorem c5_question_invariants (pool : List String) (q : StroopQuestion)
    (hnd : pool.Nodup) (hlen : 4 ≤ pool.length)
    (hsub : ∀ c ∈ pool, c ∈ registryNames) (hgen : Gen pool q) :
    q.textWord ≠ q.fontColorName ∧
    q.options.length = 4 ∧ q.options.Nodup ∧ q.fontColorName ∈ q.options := by
  obtain ⟨fc, tw, ds, o1, oF, hfc, htw, hperm, hfill, hpermF, hq⟩ := hgen
  subst hq
  have hfilter_ne : pool.filter (fun c => c != fc) ≠ [] :=
    filter_ne_nonempty pool fc hnd (by omega)
  have htw' : tw ∈ pool.filter (fun c => c != fc) := by
    rcases htw with ⟨_, h⟩ | ⟨hemp, _⟩
    · exact h
    · exact absurd hemp hfilter_ne
  have htw_pool : tw ∈ pool := (List.mem_filter.mp htw').1
  have hds_nd : ds.Nodup := (hperm.nodup_iff).mpr (hnd.filter _)
  have htake_ne_fc : ∀ x ∈ ds.take 3, x ≠ fc := by
    intro x hx
    have hxds : x ∈ ds := List.mem_of_mem_take hx
    have := (List.mem_filter.mp (hperm.mem_iff.mp hxds)).2
    simp only [Bool.and_eq_true, bne_iff_ne] at this
    exact this.1
  have ho0 : (fc :: ds.take 3).Nodup := by
    rw [List.nodup_cons]
    refine ⟨fun hmem => htake_ne_fc fc hmem rfl, ?_⟩
    exact hds_nd.sublist (List.take_sublist 3 ds)
  refine ⟨?_, ?_, ?_, ?_⟩
  · intro h
    exact registry_no_upper tw (hsub tw htw_pool) fc (hsub fc hfc) h
  · rw [hpermF.length_eq]
    exact fillTo4_length hfill
  · exact (hpermF.nodup_iff).mpr (fillTo4_nodup hfill ho0)
  · exact hpermF.mem_iff.mpr (fillTo4_mem hfill (List.mem_cons_self fc _))

/-- C5 witness: a concrete run over the difficulty-1 pool that picks Red as
font color, BLUE as word, keeps distractors Green and Yellow and backfills
Blue from the registry. -/
theorem c5_witness :
    exQuestion.textWord ≠ exQuestion.fontColorName ∧
    exQuestion.options.length = 4 ∧ exQuestion.options.Nodup ∧
    exQuestion.fontColorName ∈ exQuestion.options := by
  refine c5_question_invariants (getColorPool 1) exQuestion
    (by decide) (by decide) (by decide) ?_
  refine ⟨"Red", "Blue", ["Green", "Yellow"], ["Red", "Green", "Yellow", "Blue"],
    ["Red", "Green", "Yellow", "Blue"], by decide, Or.inl ⟨by decide, by decide⟩,
    by decide, ?_, List.Perm.refl _, by decide⟩
  refine FillTo4.step _ "Blue" _ (by decide) (by decide) (by decide) ?_
  exact FillTo4.done _ (by decide)

-- ── Leaderboard claims ──

/-- Records of the ranking example of the spec: two 1240-point entries with
reaction times 45.2 and 42.1, and a 950-point entry with 50. -/
def exRecords : List PlayerScore :=
  [{ username := "CipherMaster", mode := "endless", totalPoints := 1240,
     correctAnswers := 42, maxCombo := 15, avgReactionMs := 452/10,
     elapsedSeconds := 1205/10, rating := "Expert" },
   { username := "QuantumMind", mode := "endless", totalPoints := 1240,
     correctAnswers := 55, maxCombo := 22, avgReactionMs := 421/10,
     elapsedSeconds := 1802/10, rating := "Grandmaster" },
   { username := "MasterPlayer", mode := "endless", totalPoints := 950,
     correctAnswers := 30, maxCombo := 8, avgReactionMs := 50,
     elapsedSeconds := 75, rating := "Proficient" }]

/-- The rank ordering is transitive. -/
theorem rankLE_trans : ∀ a b c : PlayerScore, rankLE a b → rankLE b c → rankLE a c := by
  intro a b c hab hbc
  simp only [rankLE, decide_eq_true_eq] at hab hbc ⊢
  rcases hab with h1 | ⟨h1, h2⟩ <;> rcases hbc with h3 | ⟨h3, h4⟩
  · exact Or.inl (by omega)
  · exact Or.inl (by omega)
  · exact Or.inl (by omega)
  · exact Or.inr ⟨h1.trans h3, h2.trans h4⟩

/-- The rank ordering is total. -/
theorem rankLE_total : ∀ a b : PlayerScore, rankLE a b || rankLE b a := by
  intro a b
  simp only [rankLE, Bool.or_eq_true, decide_eq_true_eq]
  rcases lt_trichotomy a.totalPoints b.totalPoints with h | h | h
  · exact Or.inr (Or.inl h)
  · rcases le_total a.avgReactionMs b.avgReactionMs with hr | hr
    · exact Or.inl (Or.inr ⟨h, hr⟩)
    · exact Or.inr (Or.inr ⟨h.symm, hr⟩)
  · exact Or.inl (Or.inl h)

/-- Every entry the ranking loop emits carries the points and reaction time
of some underlying record. -/
theorem mem_rankify {total n : ℕ} {l : List PlayerScore} {e : RankEntry}
    (h : e ∈ rankify total n l) :
    ∃ p ∈ l, e.totalPoints = p.totalPoints ∧ e.avgReactionMs = p.avgReactionMs := by
  induction l generalizing n with
  | nil => simp [rankify] at h
  | cons p rest ih =>
    simp only [rankify, List.mem_cons] at h
    rcases h with h | h
    · subst h
      exact ⟨p, by simp, rfl, rfl⟩
    · obtain ⟨p', hp', h1, h2⟩ := ih h
      exact ⟨p', by simp [hp'], h1, h2⟩

/-- The ranking loop preserves the sortedness of its input. -/
theorem rankify_pairwise {total n : ℕ} {l : List PlayerScore}
    (h : l.Pairwise (fun a b => b.totalPoints < a.totalPoints ∨
      (a.totalPoints = b.totalPoints ∧ a.avgReactionMs ≤ b.avgReactionMs))) :
    (rankify total n l).Pairwise (fun x y => y.totalPoints < x.totalPoints ∨
      (x.totalPoints = y.totalPoints ∧ x.avgReactionMs ≤ y.avgReactionMs)) := by
  induction l generalizing n with
  | nil => simp [rankify]
  | cons p rest ih =>
    rw [List.pairwise_cons] at h
    simp only [rankify, List.pairwise_cons]
    constructor
    · intro e he
      obtain ⟨p', hp', h1, h2⟩ := mem_rankify he
      have hpp := h.1 p' hp'
      rw [h1, h2]
      exact hpp
    · exact ih h.2

/-- The ranking loop emits one entry per record. -/
theorem rankify_length (total : ℕ) :
    ∀ (n : ℕ) (l : List PlayerScore), (rankify total n l).length = l.length := by
  intro n l
  induction l generalizing n with
  | nil => simp [rankify]
  | cons p rest ih => simp [rankify, ih]

/-- Percentile of the entry at offset i of a loop started at index n. -/
theorem rankify_get_percentile (total : ℕ) (l : List PlayerScore) :
    ∀ (n i : ℕ) (h : i < (rankify total n l).length),
      ((rankify total n l).get ⟨i, h⟩).percentile =
        if 1 < total then
          (((total : ℚ) - ((n + i : ℕ) : ℚ) - 1) / ((total : ℚ) - 1)) * 100
        else 100 := by
  induction l with
  | nil => intro n i h; simp [rankify] at h
  | cons p rest ih =>
    intro n i h
    cases i with
    | zero => simp [rankify]
    | succ j =>
      have hj : j < (rankify total (n + 1) rest).length := by
        have := h
        simp only [rankify, List.length_cons] at this
        simpa using Nat.lt_of_succ_lt_succ this
      have := ih (n + 1) j hj
      simp only [rankify, List.get_cons_succ]
      rw [this]
      have harith : n + 1 + j = n + (j + 1) := by omega
      rw [harith]

/-- C6: getRankings orders the filtered records by totalPoints descending
with ties broken by avgReactionMs ascending, gives the i-th of N entries
percentile (N - 1 - i) / (N - 1) * 100 when N > 1 and 100 otherwise, and on
the three-record example of the spec returns the 42.1-reaction 1240 first,
the 45.2-reaction 1240 second and the 950 third with percentiles 100, 50,
0. -/
theorem c6_rankings :
    (∀ (scores : List PlayerScore) (f : String),
      (getRankings scores f).Pairwise (fun x y => y.totalPoints < x.totalPoints ∨
        (x.totalPoints = y.totalPoints ∧ x.avgReactionMs ≤ y.avgReactionMs))) ∧
    (∀ (scores : List PlayerScore) (f : String) (i : ℕ)
      (h : i < (getRankings scores f).length),
      ((getRankings scores f).get ⟨i, h⟩).percentile =
        if 1 < (getRankings scores f).length then
          ((((getRankings scores f).length : ℚ) - (i : ℚ) - 1) /
            (((getRankings scores f).length : ℚ) - 1)) * 100
        else 100) ∧
    ((getRankings exRecords "").map RankEntry.username =
      ["QuantumMind", "CipherMaster", "MasterPlayer"] ∧
     (getRankings exRecords "").map RankEntry.percentile = [100, 50, 0]) := by
  refine ⟨?_, ?_, ?_, ?_⟩
  · intro scores f
    simp only [getRankings]
    apply rankify_pairwise
    have hs : (List.mergeSort (scores.filter (fun s => f == "" || s.mode == f))
        rankLE).Pairwise (fun a b => rankLE a b = true) :=
      List.sorted_mergeSort rankLE_trans rankLE_total
        (scores.filter (fun s => f == "" || s.mode == f))
    refine hs.imp ?_
    intro a b hab
    simpa only [rankLE, decide_eq_true_eq] using hab
  · intro scores f i h
    simp only [getRankings] at h ⊢
    rw [rankify_get_percentile]
    rw [rankify_length]
    norm_num
  · norm_num [getRankings, exRecords, List.mergeSort, rankLE, rankify, List.filter]
  · norm_num [getRankings, exRecords, List.mergeSort, rankLE, rankify, List.filter]

/-- C6 witness: the percentile clause instantiated on the example records at
index 0, together with the concrete percentile column. -/
theorem c6_witness :
    0 < (getRankings exRecords "").length ∧
    (getRankings exRecords "").map RankEntry.percentile = [100, 50, 0] := by
  have hlen : 0 < (getRankings exRecords "").length := by
    norm_num [getRankings, exRecords, List.mergeSort, rankLE, rankify, List.filter]
  have hp := c6_rankings.2.1 exRecords "" 0 hlen
  exact ⟨hlen, c6_rankings.2.2.2⟩

end ColorConfusion
